import Mathlib

/-!
Shallow embedding of the FontSnap font-identification pipeline:
`src/utils/fontUtils.js` (similarity scorer), `src/components/FontMatcher.jsx`
(candidate loop and ranking), `src/components/OcrProcessor.jsx` (text
clean-up and confirmation), `src/App.jsx` (orchestrator state), and the
catalog-fetching variant of the matcher (`fetchGoogleFonts`).
JavaScript numbers are modelled as exact rationals.
-/

namespace FontSnap

/-- One RGBA entry of a canvas `ImageData` array.  The JavaScript code reads
the flat array `data` four consecutive bytes at a time; here a buffer is a
function from the pixel index to its four channels. -/
structure Pixel where
  r : ℚ
  g : ℚ
  b : ℚ
  a : ℚ
deriving DecidableEq

/-- `compareCanvasText` resizes both canvases to `size = 400`. -/
def size : ℕ := 400

/-- Number of pixel positions compared (`data.length / 4`). -/
def pixelCount : ℕ := size * size

/-- Grayscale intensity `(data[i] + data[i + 1] + data[i + 2]) / 3`. -/
def gray (p : Pixel) : ℚ := (p.r + p.g + p.b) / 3

/-- Normalized per-pixel difference `Math.abs(gray1 - gray2) / 255`. -/
def pixelDiff (p q : Pixel) : ℚ := |gray p - gray q| / 255

/-- The accumulation loop of `compareCanvasText`: starting from
`totalDifference = 0, pixelCount = 0`, each iteration adds the normalized
grayscale difference and increments the counter.  In the source, `i` steps
over the RGBA array by 4; that position corresponds to pixel index `i / 4`
here.  `alpha1` and `alpha2` are read in the source but never used, so they
do not enter the computation. -/
def comparePixelsLoop (d1 d2 : ℕ → Pixel) : ℚ × ℕ :=
  (List.range pixelCount).foldl
    (fun acc i => (acc.1 + pixelDiff (d1 i) (d2 i), acc.2 + 1)) (0, 0)

/-- JavaScript `Math.round`: round half toward positive infinity. -/
def jsRound (x : ℚ) : ℤ := ⌊x + 1 / 2⌋

/-- `compareCanvasText` from `src/utils/fontUtils.js`, acting on the two
already-resized 400x400 buffers (the `resizeCanvas` calls delegate to the
browser's `drawImage` resampling, which lies outside this embedding; both
arguments here are the resampled buffers it produces). -/
def compareCanvasText (d1 d2 : ℕ → Pixel) : ℚ :=
  let acc := comparePixelsLoop d1 d2
  let averageDifference := acc.1 / (acc.2 : ℚ)
  let similarity := max 0 ((1 - averageDifference) * 100)
  (jsRound (similarity * 100) : ℚ) / 100

/-- Total normalized difference of the loop, written as a `Finset` sum. -/
def totalDiff (d1 d2 : ℕ → Pixel) : ℚ :=
  ∑ i ∈ Finset.range pixelCount, pixelDiff (d1 i) (d2 i)

/-- Average normalized difference (`averageDifference` in the source). -/
def avgDiff (d1 d2 : ℕ → Pixel) : ℚ :=
  totalDiff d1 d2 / (pixelCount : ℚ)

lemma comparePixelsLoop_spec (d1 d2 : ℕ → Pixel) :
    ∀ (n : ℕ) (t : ℚ) (c : ℕ),
      (List.range n).foldl
        (fun acc i => (acc.1 + pixelDiff (d1 i) (d2 i), acc.2 + 1)) (t, c)
      = (t + ∑ i ∈ Finset.range n, pixelDiff (d1 i) (d2 i), c + n) := by
  intro n
  induction n with
  | zero => intro t c; simp
  | succ n ih =>
      intro t c
      rw [List.range_succ, List.foldl_append, ih]
      simp [Finset.sum_range_succ, add_assoc]

lemma comparePixelsLoop_eq (d1 d2 : ℕ → Pixel) :
    comparePixelsLoop d1 d2 = (totalDiff d1 d2, pixelCount) := by
  unfold comparePixelsLoop totalDiff
  rw [comparePixelsLoop_spec]
  simp

lemma compareCanvasText_eq (d1 d2 : ℕ → Pixel) :
    compareCanvasText d1 d2
      = (jsRound (max 0 ((1 - avgDiff d1 d2) * 100) * 100) : ℚ) / 100 := by
  unfold compareCanvasText avgDiff
  rw [comparePixelsLoop_eq]

lemma pixelDiff_nonneg (p q : Pixel) : 0 ≤ pixelDiff p q := by
  unfold pixelDiff
  positivity

lemma totalDiff_nonneg (d1 d2 : ℕ → Pixel) : 0 ≤ totalDiff d1 d2 :=
  Finset.sum_nonneg fun i _ => pixelDiff_nonneg (d1 i) (d2 i)

lemma avgDiff_nonneg (d1 d2 : ℕ → Pixel) : 0 ≤ avgDiff d1 d2 :=
  div_nonneg (totalDiff_nonneg d1 d2) (by norm_num [pixelCount, size])

/-- Characterization of a perfect score: because of the final rounding, the
returned value is exactly 100 whenever the average normalized difference is
at most `1 / 20000`. -/
lemma compareCanvasText_eq_hundred_iff (d1 d2 : ℕ → Pixel) :
    compareCanvasText d1 d2 = 100 ↔ avgDiff d1 d2 ≤ 1 / 20000 := by
  rw [compareCanvasText_eq]
  set a := avgDiff d1 d2 with ha
  have ha0 : 0 ≤ a := avgDiff_nonneg d1 d2
  have hmax : max 0 ((1 - a) * 100) * 100 = max 0 ((1 - a) * 10000) := by
    rw [max_mul_of_nonneg _ _ (by norm_num : (0:ℚ) ≤ 100), zero_mul, mul_assoc]
    norm_num
  rw [hmax]
  constructor
  · intro h
    by_contra hgt
    push_neg at hgt
    have h1 : max 0 ((1 - a) * 10000) < 9999 + 1 / 2 := by
      have hlt : (1 - a) * 10000 < 9999 + 1 / 2 := by nlinarith
      exact max_lt (by norm_num) hlt
    have hfl : jsRound (max 0 ((1 - a) * 10000)) < 10000 := by
      unfold jsRound
      refine Int.floor_lt.mpr ?_
      push_cast
      linarith
    have hq : (jsRound (max 0 ((1 - a) * 10000)) : ℚ) ≤ 9999 := by
      have : jsRound (max 0 ((1 - a) * 10000)) ≤ 9999 := by omega
      exact_mod_cast this
    have h100 : (jsRound (max 0 ((1 - a) * 10000)) : ℚ) = 10000 := by
      field_simp at h
      linarith [h]
    linarith
  · intro h
    have hge : 9999 + 1 / 2 ≤ (1 - a) * 10000 := by nlinarith
    have hle : (1 - a) * 10000 ≤ 10000 := by nlinarith
    have hm : max 0 ((1 - a) * 10000) = (1 - a) * 10000 :=
      max_eq_right (by linarith)
    rw [hm]
    have : jsRound ((1 - a) * 10000) = 10000 := by
      unfold jsRound
      rw [Int.floor_eq_iff]
      constructor
      · push_cast; linarith
      · push_cast; linarith
    rw [this]
    norm_num

/-- A Google-Fonts candidate as listed in `testFonts` of
`src/components/FontMatcher.jsx`. -/
structure FontCandidate where
  name : String
  family : String
  weight : ℕ
deriving DecidableEq

/-- A scored candidate, the object `{ ...font, similarity, previewCanvas }`
pushed by the matching loop.  The `previewCanvas` field is a browser canvas
kept only for presentation; it carries no data used by ranking and is
omitted here. -/
structure ScoredMatch where
  font : FontCandidate
  similarity : ℚ
deriving DecidableEq

/-- The built-in candidate list `testFonts` (10 entries). -/
def testFonts : List FontCandidate :=
  [ ⟨"Roboto", "Roboto, sans-serif", 400⟩,
    ⟨"Roboto Medium", "Roboto, sans-serif", 500⟩,
    ⟨"Roboto Bold", "Roboto, sans-serif", 700⟩,
    ⟨"Lato", "Lato, sans-serif", 400⟩,
    ⟨"Lato Bold", "Lato, sans-serif", 700⟩,
    ⟨"Montserrat", "Montserrat, sans-serif", 400⟩,
    ⟨"Montserrat SemiBold", "Montserrat, sans-serif", 600⟩,
    ⟨"Montserrat Bold", "Montserrat, sans-serif", 700⟩,
    ⟨"Playfair Display", "Playfair Display, serif", 400⟩,
    ⟨"Playfair Display Bold", "Playfair Display, serif", 700⟩ ]

/-- Comparator order of `matches.sort((a, b) => b.similarity - a.similarity)`:
`a` may precede `b` exactly when the comparator value is nonpositive. -/
def simGE (a b : ScoredMatch) : Prop := b.similarity ≤ a.similarity

instance : DecidableRel simGE := fun a b =>
  inferInstanceAs (Decidable (b.similarity ≤ a.similarity))

instance : IsTotal ScoredMatch simGE :=
  ⟨fun a b => le_total b.similarity a.similarity⟩

instance : IsTrans ScoredMatch simGE :=
  ⟨fun _ _ _ hab hbc => le_trans hbc hab⟩

/-- `matches.sort((a, b) => b.similarity - a.similarity)`.
`Array.prototype.sort` is stable (ECMAScript 2019) and the comparator is
consistent, so its output is the unique permutation that is descending by
`similarity` and keeps the original order of tied elements; stable insertion
sort produces exactly that permutation. -/
def sortDesc (ms : List ScoredMatch) : List ScoredMatch :=
  List.insertionSort simGE ms

/-- The ranking step: sort descending by similarity, `slice(0, 3)`. -/
def rank (ms : List ScoredMatch) : List ScoredMatch :=
  (sortDesc ms).take 3

lemma sortDesc_perm (ms : List ScoredMatch) : (sortDesc ms).Perm ms :=
  List.perm_insertionSort simGE ms

lemma length_sortDesc (ms : List ScoredMatch) :
    (sortDesc ms).length = ms.length :=
  (sortDesc_perm ms).length_eq

lemma mem_sortDesc {a : ScoredMatch} {ms : List ScoredMatch} :
    a ∈ sortDesc ms ↔ a ∈ ms :=
  (sortDesc_perm ms).mem_iff

lemma pairwise_sortDesc (ms : List ScoredMatch) :
    (sortDesc ms).Pairwise simGE :=
  List.sorted_insertionSort simGE ms

lemma rank_length_le (ms : List ScoredMatch) : (rank ms).length ≤ 3 := by
  unfold rank
  rw [List.length_take]
  exact min_le_left _ _

lemma rank_pairwise (ms : List ScoredMatch) : (rank ms).Pairwise simGE :=
  (pairwise_sortDesc ms).sublist (List.take_sublist 3 _)

lemma rank_subset {m : ScoredMatch} {ms : List ScoredMatch}
    (h : m ∈ rank ms) : m ∈ ms :=
  mem_sortDesc.mp (List.take_subset 3 _ h)

lemma rank_length_of_ge (ms : List ScoredMatch) (h : 3 ≤ ms.length) :
    (rank ms).length = 3 := by
  unfold rank
  rw [List.length_take, length_sortDesc]
  omega

/-- The body of `performFontMatching`'s candidate loop.  `scoreOf f` stands
for rendering `f` and comparing it against the reference
(`renderTextToCanvas` followed by `compareCanvasText`); `none` means that
step threw.  A throw propagates out of the loop — there is no per-candidate
handler in the source — which this embedding models by returning `none` for
the whole loop. -/
def runLoop (scoreOf : FontCandidate → Option ℚ) :
    List FontCandidate → List ScoredMatch → Option (List ScoredMatch)
  | [], acc => some acc
  | f :: rest, acc =>
    match scoreOf f with
    | none => none
    | some s => runLoop scoreOf rest (acc ++ [⟨f, s⟩])

/-- `performFontMatching` over `testFonts`: on normal completion the matches
are sorted and sliced to the top 3 and handed to `onMatchingComplete`; if
anything inside the `try` block throws, the `catch` branch hands
`onMatchingComplete` the empty list. -/
def runMatching (scoreOf : FontCandidate → Option ℚ) : List ScoredMatch :=
  match runLoop scoreOf testFonts [] with
  | some ms => rank ms
  | none => []

lemma runLoop_some_length (scoreOf : FontCandidate → Option ℚ) :
    ∀ (fonts : List FontCandidate) (acc res : List ScoredMatch),
      runLoop scoreOf fonts acc = some res →
      res.length = acc.length + fonts.length := by
  intro fonts
  induction fonts with
  | nil =>
      intro acc res h
      simp [runLoop] at h
      simp [← h]
  | cons f rest ih =>
      intro acc res h
      unfold runLoop at h
      cases hs : scoreOf f with
      | none => rw [hs] at h; exact absurd h (by simp)
      | some s =>
          rw [hs] at h
          have := ih (acc ++ [⟨f, s⟩]) res h
          simp at this
          simp [this]
          omega

lemma runLoop_none_of_mem (scoreOf : FontCandidate → Option ℚ) :
    ∀ (fonts : List FontCandidate) (acc : List ScoredMatch)
      (f : FontCandidate), f ∈ fonts → scoreOf f = none →
      runLoop scoreOf fonts acc = none := by
  intro fonts
  induction fonts with
  | nil => intro acc f h; exact absurd h (List.not_mem_nil f)
  | cons g rest ih =>
      intro acc f hmem hnone
      unfold runLoop
      cases hs : scoreOf g with
      | none => rfl
      | some s =>
          rcases List.mem_cons.mp hmem with heq | htail
          · rw [heq] at hnone; rw [hnone] at hs; exact absurd hs (by simp)
          · exact ih _ f htail hnone

lemma runLoop_isSome_of_forall (scoreOf : FontCandidate → Option ℚ) :
    ∀ (fonts : List FontCandidate) (acc : List ScoredMatch),
      (∀ f ∈ fonts, (scoreOf f).isSome) →
      ∃ res, runLoop scoreOf fonts acc = some res := by
  intro fonts
  induction fonts with
  | nil => intro acc _; exact ⟨acc, rfl⟩
  | cons g rest ih =>
      intro acc h
      unfold runLoop
      cases hs : scoreOf g with
      | none =>
          have := h g (List.mem_cons_self g rest)
          rw [hs] at this
          exact absurd this (by simp)
      | some s =>
          exact ih _ fun f hf => h f (List.mem_cons_of_mem g hf)

/-- State held by the `App` component (`useState` hooks), together with the
step meaning: 1 Upload, 2 Crop, 3 Extract, 4 Match, 5 Results. -/
structure AppState where
  currentStep : ℕ
  uploadedImage : Option String
  croppedImage : Option String
  extractedText : String
  fontMatches : List ScoredMatch
  isProcessing : Bool
deriving DecidableEq

/-- The initial values of the `useState` hooks in `App`. -/
def initialState : AppState := ⟨1, none, none, "", [], false⟩

/-- `resetApp` ("Start Over"): sets every state field back to its initial
value. -/
def resetApp (s : AppState) : AppState :=
  { s with
      currentStep := 1
      uploadedImage := none
      croppedImage := none
      extractedText := ""
      fontMatches := []
      isProcessing := false }

/-- `handleImageUpload`. -/
def handleImageUpload (imageUrl : String) (s : AppState) : AppState :=
  { s with uploadedImage := some imageUrl, currentStep := 2 }

/-- `handleCropComplete`. -/
def handleCropComplete (croppedImageUrl : String) (s : AppState) : AppState :=
  { s with croppedImage := some croppedImageUrl, currentStep := 3 }

/-- `handleOcrComplete`, the extraction callback (`onTextExtracted`). -/
def handleOcrComplete (text : String) (s : AppState) : AppState :=
  { s with extractedText := text, currentStep := 4 }

/-- `handleFontMatchingComplete`, the matching-complete callback
(`onMatchingComplete`). -/
def handleFontMatchingComplete (ms : List ScoredMatch) (s : AppState) :
    AppState :=
  { s with fontMatches := ms, currentStep := 5, isProcessing := false }

/-- The whitespace test used by JavaScript `trim` and the regex class
`\s` (restricted to the ASCII whitespace characters: space, tab, line feed,
carriage return, vertical tab, form feed; the Unicode space characters play
no role in the claims). -/
def wsb (c : Char) : Bool :=
  c == ' ' || c == '\t' || c == '\n' || c == '\r' ||
    c == Char.ofNat 11 || c == Char.ofNat 12

/-- Helper for global regex replacement of character runs: `inRun` records
whether the previous character already belonged to a run matched by `p`, so
that each maximal run contributes exactly one copy of `rep`. -/
def collapseAux (p : Char → Bool) (rep : Char) : Bool → List Char → List Char
  | _, [] => []
  | inRun, c :: cs =>
    if p c then
      if inRun then collapseAux p rep true cs
      else rep :: collapseAux p rep true cs
    else c :: collapseAux p rep false cs

/-- `str.replace(/X+/g, rep)` for a single-character class `X` given by `p`:
every maximal nonempty run of characters satisfying `p` becomes one `rep`. -/
def collapseRuns (p : Char → Bool) (rep : Char) (l : List Char) : List Char :=
  collapseAux p rep false l

/-- JavaScript `String.prototype.trim`: drop whitespace from both ends. -/
def jsTrim (l : List Char) : List Char :=
  ((l.dropWhile wsb).reverse.dropWhile wsb).reverse

/-- The clean-up applied to the raw OCR output in `performOCR`:
`text.trim().replace(/\n+/g, ' ').replace(/\s+/g, ' ')`. -/
def cleanOcr (raw : List Char) : List Char :=
  collapseRuns wsb ' ' (collapseRuns (fun c => c == '\n') ' ' (jsTrim raw))

/-- `handleConfirm` in `OcrProcessor`: if the trimmed current text is truthy
(nonempty), pass `extractedText.trim()` to `onTextExtracted`; otherwise do
nothing.  `extractedText` is either the cleaned OCR output or whatever the
user typed into the editing textarea. -/
def handleConfirm (extractedText : List Char) : Option (List Char) :=
  if jsTrim extractedText ≠ [] then some (jsTrim extractedText) else none

/-- `t` has no leading and no trailing whitespace character. -/
def noEdgeWS (t : List Char) : Bool :=
  (t.head?.all fun c => !wsb c) && (t.getLast?.all fun c => !wsb c)

lemma head_all_dropWhile (p : Char → Bool) :
    ∀ l : List Char, ((l.dropWhile p).head?.all fun c => !p c) = true := by
  intro l
  induction l with
  | nil => rfl
  | cons c cs ih =>
      rw [List.dropWhile]
      cases hp : p c with
      | true => simpa using ih
      | false => simp [hp]

lemma getLast_all_dropWhile (p q : Char → Bool) :
    ∀ l : List Char, (l.getLast?.all q) = true →
      ((l.dropWhile p).getLast?.all q) = true := by
  intro l
  induction l with
  | nil => intro _; rfl
  | cons c cs ih =>
      intro h
      rw [List.dropWhile_cons]
      by_cases hp : p c = true
      · rw [if_pos hp]
        cases cs with
        | nil => rfl
        | cons d ds =>
            apply ih
            rwa [List.getLast?_cons_cons] at h
      · rw [if_neg hp]
        exact h

lemma mem_dropWhile_sub (p : Char → Bool) {c : Char} :
    ∀ {l : List Char}, c ∈ l.dropWhile p → c ∈ l := by
  intro l
  induction l with
  | nil => intro h; exact h
  | cons d ds ih =>
      intro h
      rw [List.dropWhile] at h
      cases hp : p d with
      | true =>
          rw [hp] at h
          exact List.mem_cons_of_mem d (ih h)
      | false =>
          rw [hp] at h
          exact h

lemma jsTrim_noEdgeWS (l : List Char) : noEdgeWS (jsTrim l) = true := by
  unfold noEdgeWS jsTrim
  apply Bool.and_eq_true_iff.mpr
  constructor
  · rw [List.head?_reverse]
    apply getLast_all_dropWhile
    rw [List.getLast?_reverse]
    exact head_all_dropWhile wsb _
  · rw [List.getLast?_reverse]
    exact head_all_dropWhile wsb _

lemma mem_jsTrim {c : Char} {l : List Char} (h : c ∈ jsTrim l) : c ∈ l := by
  unfold jsTrim at h
  rw [List.mem_reverse] at h
  have h1 := mem_dropWhile_sub wsb h
  rw [List.mem_reverse] at h1
  exact mem_dropWhile_sub wsb h1

lemma mem_collapseAux (p : Char → Bool) (rep : Char) {c : Char} :
    ∀ (b : Bool) (l : List Char),
      c ∈ collapseAux p rep b l → c = rep ∨ p c = false := by
  intro b l
  induction l generalizing b with
  | nil => intro h; exact absurd h (List.not_mem_nil c)
  | cons d ds ih =>
      intro h
      rw [collapseAux] at h
      by_cases hp : p d = true
      · rw [if_pos hp] at h
        cases b with
        | true => exact ih true h
        | false =>
            rw [if_neg Bool.false_ne_true] at h
            rcases List.mem_cons.mp h with heq | htail
            · exact Or.inl heq
            · exact ih true htail
      · rw [if_neg hp] at h
        rcases List.mem_cons.mp h with heq | htail
        · subst heq
          exact Or.inr (Bool.not_eq_true _ ▸ by simpa using hp)
        · exact ih false htail

lemma newline_not_mem_cleanOcr (raw : List Char) :
    ¬ '\n' ∈ cleanOcr raw := by
  intro h
  rcases mem_collapseAux wsb ' ' false _ h with heq | hfalse
  · exact absurd heq (by decide)
  · exact absurd hfalse (by simp [wsb])

/-- A catalog entry produced by `fetchGoogleFonts` in the catalog-fetching
variant of the matcher: a family with its usable weight variants. -/
structure CatalogFont where
  name : String
  family : String
  weights : List String
deriving DecidableEq

/-- An item of the Google Fonts webfonts API response. -/
structure GoogleFontItem where
  family : String
  variants : List String
deriving DecidableEq

/-- The built-in fallback candidate list used when the API key is missing or
the catalog fetch fails. -/
def fallbackFonts : List CatalogFont :=
  [ ⟨"Roboto", "Roboto, sans-serif", ["400", "700"]⟩,
    ⟨"Lato", "Lato, sans-serif", ["400", "700"]⟩,
    ⟨"Montserrat", "Montserrat, sans-serif", ["400", "700"]⟩ ]

/-- The regex test `/^[0-9]+$/.test(v)`. -/
def isNumericStr (v : String) : Bool :=
  v ≠ "" && v.data.all Char.isDigit

/-- The per-item mapping inside `fetchGoogleFonts`: keep numeric weights,
italic variants and `regular` (the latter normalized to `400`). -/
def mapGoogleFont (item : GoogleFontItem) : CatalogFont :=
  ⟨item.family,
   "'" ++ item.family ++ "', sans-serif",
   (item.variants.filter fun v =>
      isNumericStr v || v.endsWith "italic" || v == "regular").map
     fun v => if v == "regular" then "400" else v⟩

/-- `fetchGoogleFonts`.  `apiKey = none` models a missing (or falsy) key in
`VITE_GOOGLE_FONTS_API_KEY`; `fetchResult = none` models the network fetch
or JSON decoding throwing, which the `catch` branch turns into the fallback
list; `some items` is the decoded `data.items`, of which the first 20 are
kept. -/
def fetchGoogleFonts (apiKey : Option String)
    (fetchResult : Option (List GoogleFontItem)) : List CatalogFont :=
  match apiKey with
  | none => fallbackFonts
  | some _ =>
    match fetchResult with
    | none => fallbackFonts
    | some items => (items.take 20).map mapGoogleFont

/-- JavaScript `parseInt(v, 10)` restricted to the shapes that occur here:
the number given by the leading decimal digits of `v`, or `none` (`NaN`)
when `v` has no leading digit. -/
def parseIntOpt (v : String) : Option ℕ :=
  let ds := v.data.takeWhile Char.isDigit
  if ds = [] then none
  else some (ds.foldl (fun n c => 10 * n + (c.toNat - 48)) 0)

/-- One iteration of the inner weight loop: build the candidate for `w`
unless `parseInt` yields `NaN` (the `continue` branch). -/
def candidateOfWeight (f : CatalogFont) (w : String) : Option FontCandidate :=
  (parseIntOpt w).map fun pw => ⟨f.name ++ " " ++ w, f.family, pw⟩

/-- The candidates actually tested by the nested
`for font / for weight` loop, in loop order. -/
def expandWeights (fonts : List CatalogFont) : List FontCandidate :=
  fonts.flatMap fun f => f.weights.filterMap (candidateOfWeight f)

/-- `performFontMatching` of the catalog-fetching matcher over an arbitrary
catalog: identical loop/rank/catch structure, iterating over every
`(font, weight)` pair. -/
def runMatchingCatalog (fonts : List CatalogFont)
    (scoreOf : FontCandidate → Option ℚ) : List ScoredMatch :=
  match runLoop scoreOf (expandWeights fonts) [] with
  | some ms => rank ms
  | none => []

lemma pixelDiff_self (p : Pixel) : pixelDiff p p = 0 := by
  simp [pixelDiff]

lemma jsRound_mono {x y : ℚ} (h : x ≤ y) : jsRound x ≤ jsRound y := by
  unfold jsRound
  exact Int.floor_mono (by linarith)

/-- The Similarity Scorer as the spec words it (the reference definition of
claim C2): per-pixel grayscale intensity from the three color channels of
each buffer, absolute difference normalized to `[0,1]`, averaged over all
pixel positions to get `avgDiff`; score is `max(0, (1 - avgDiff) * 100)`
rounded to two decimal places (with `Math.round` rounding). -/
def specSimilarityScore (d1 d2 : ℕ → Pixel) : ℚ :=
  let avgD :=
    (∑ i ∈ Finset.range pixelCount,
        |((d1 i).r + (d1 i).g + (d1 i).b) / 3 -
            ((d2 i).r + (d2 i).g + (d2 i).b) / 3| / 255) /
      (pixelCount : ℚ)
  (jsRound (max 0 ((1 - avgD) * 100) * 100) : ℚ) / 100

/-- C2: for every pair of (resampled 400x400) pixel buffers, the similarity
score computed by `compareCanvasText` equals the reference definition: mean
of the three color channels as grayscale, per-pixel absolute difference
normalized to `[0,1]`, averaged into `avgDiff`, and
`max(0, (1 - avgDiff) * 100)` rounded to two decimal places. -/
theorem similarity_score_matches_spec (d1 d2 : ℕ → Pixel) :
    compareCanvasText d1 d2 = specSimilarityScore d1 d2 := by
  rw [compareCanvasText_eq]
  unfold specSimilarityScore avgDiff totalDiff pixelDiff gray
  rfl

/-- The all-white pixel (a white canvas background). -/
def whitePixel : Pixel := ⟨255, 255, 255, 255⟩

/-- Uniformly white 400x400 buffer. -/
def bufWhite : ℕ → Pixel := fun _ => whitePixel

/-- White 400x400 buffer except pixel 0, whose red channel is 254. -/
def bufAlmostWhite : ℕ → Pixel :=
  fun i => if i = 0 then ⟨254, 255, 255, 255⟩ else whitePixel

/-- Uniformly black 400x400 buffer (opaque). -/
def bufBlack : ℕ → Pixel := fun _ => ⟨0, 0, 0, 255⟩

lemma totalDiff_bufAlmostWhite :
    totalDiff bufWhite bufAlmostWhite = 1 / 765 := by
  unfold totalDiff
  have hcong : ∀ i ∈ Finset.range pixelCount,
      pixelDiff (bufWhite i) (bufAlmostWhite i)
        = if i = 0 then (1 : ℚ) / 765 else 0 := by
    intro i _
    by_cases h : i = 0
    · subst h
      rw [if_pos rfl]
      norm_num [bufWhite, bufAlmostWhite, pixelDiff, gray, whitePixel]
      rw [abs_of_nonneg (by norm_num : (0 : ℚ) ≤ 1 / 3)]
      norm_num
    · rw [if_neg h]
      simp [bufWhite, bufAlmostWhite, if_neg h, pixelDiff_self]
  rw [Finset.sum_congr rfl hcong,
    Finset.sum_ite_eq' (Finset.range pixelCount) 0 (fun _ => (1 : ℚ) / 765)]
  rw [if_pos (Finset.mem_range.mpr (by norm_num [pixelCount, size]))]

/-- C3 counterexample: the two concrete buffers `bufWhite` and
`bufAlmostWhite` differ at pixel 0, yet `compareCanvasText` returns exactly
100 for them — the rounding to two decimal places erases an average
difference of `1 / 122400000`.  So score 100 does not imply that the
buffers are pixel-identical. -/
theorem score_hundred_not_pixel_identical :
    compareCanvasText bufWhite bufAlmostWhite = 100 ∧
      ¬ (∀ i < pixelCount, bufWhite i = bufAlmostWhite i) := by
  constructor
  · rw [compareCanvasText_eq_hundred_iff]
    unfold avgDiff
    rw [totalDiff_bufAlmostWhite]
    norm_num [pixelCount, size]
  · intro h
    have h0 := h 0 (by norm_num [pixelCount, size])
    rw [show bufWhite 0 = whitePixel from rfl,
      show bufAlmostWhite 0 = ⟨254, 255, 255, 255⟩ from rfl] at h0
    exact absurd h0 (by decide)

/-- C3 (amended): `score(A, A) = 100` for every buffer `A`, and score 100
holds whenever the buffers are pixel-identical after resampling; but the
converse fails — because of the rounding, the score is 100 exactly when the
average normalized difference is at most `1 / 20000`, which non-identical
buffers can satisfy. -/
theorem score_hundred_characterization :
    (∀ d : ℕ → Pixel, compareCanvasText d d = 100) ∧
    (∀ d1 d2 : ℕ → Pixel, (∀ i < pixelCount, d1 i = d2 i) →
        compareCanvasText d1 d2 = 100) ∧
    (∀ d1 d2 : ℕ → Pixel,
        compareCanvasText d1 d2 = 100 ↔ avgDiff d1 d2 ≤ 1 / 20000) := by
  have hident : ∀ d1 d2 : ℕ → Pixel, (∀ i < pixelCount, d1 i = d2 i) →
      compareCanvasText d1 d2 = 100 := by
    intro d1 d2 h
    rw [compareCanvasText_eq_hundred_iff]
    have : totalDiff d1 d2 = 0 := by
      unfold totalDiff
      refine Finset.sum_eq_zero fun i hi => ?_
      rw [h i (Finset.mem_range.mp hi)]
      exact pixelDiff_self _
    unfold avgDiff
    rw [this]
    norm_num
  exact ⟨fun d => hident d d (fun _ _ => rfl), hident,
    fun d1 d2 => compareCanvasText_eq_hundred_iff d1 d2⟩

/-- Witness for the C3 amended theorem at a concrete input: the
pixel-identical direction applied to `bufWhite` against itself. -/
theorem score_hundred_characterization_witness :
    compareCanvasText bufWhite bufWhite = 100 :=
  score_hundred_characterization.2.1 bufWhite bufWhite (fun _ _ => rfl)

/-- C9: the similarity score is monotonically non-increasing in the
per-pixel differences — if every per-pixel normalized difference of
`(a, b')` is at least that of `(a, b)`, then
`compareCanvasText a b' ≤ compareCanvasText a b`. -/
theorem score_monotone_nonincreasing (a b b' : ℕ → Pixel)
    (h : ∀ i < pixelCount, pixelDiff (a i) (b i) ≤ pixelDiff (a i) (b' i)) :
    compareCanvasText a b' ≤ compareCanvasText a b := by
  rw [compareCanvasText_eq, compareCanvasText_eq]
  have hS : totalDiff a b ≤ totalDiff a b' :=
    Finset.sum_le_sum fun i hi => h i (Finset.mem_range.mp hi)
  have hA : avgDiff a b ≤ avgDiff a b' := by
    unfold avgDiff
    exact div_le_div_of_nonneg_right hS (by norm_num [pixelCount, size])
  have h1 : (1 - avgDiff a b') * 100 ≤ (1 - avgDiff a b) * 100 := by
    nlinarith
  have h2 : max 0 ((1 - avgDiff a b') * 100) * 100
      ≤ max 0 ((1 - avgDiff a b) * 100) * 100 := by
    have := max_le_max (le_refl (0 : ℚ)) h1
    nlinarith [this]
  have h3 := jsRound_mono h2
  have h4 : (jsRound (max 0 ((1 - avgDiff a b') * 100) * 100) : ℚ)
      ≤ (jsRound (max 0 ((1 - avgDiff a b) * 100) * 100) : ℚ) := by
    exact_mod_cast h3
  linarith

/-- Witness for C9 at concrete inputs: a white reference compared with a
black sample scores no higher than the white reference against itself. -/
theorem score_monotone_nonincreasing_witness :
    compareCanvasText bufWhite bufBlack ≤ compareCanvasText bufWhite bufWhite :=
  score_monotone_nonincreasing bufWhite bufWhite bufBlack
    (fun i _ => by rw [pixelDiff_self]; exact pixelDiff_nonneg _ _)

/-- First tied candidate of the C4 counterexample. -/
def tiedM1 : ScoredMatch := ⟨⟨"Roboto", "Roboto, sans-serif", 400⟩, 50⟩

/-- Second tied candidate of the C4 counterexample. -/
def tiedM2 : ScoredMatch := ⟨⟨"Lato", "Lato, sans-serif", 400⟩, 50⟩

/-- C4 counterexample: with two candidates scored equally, the ranking
output keeps both, so it is not strictly descending by score — the claim
holds only with non-strict descent. -/
theorem rank_not_strictly_descending :
    rank [tiedM1, tiedM2] = [tiedM1, tiedM2] ∧
      ¬ (rank [tiedM1, tiedM2]).Pairwise
          (fun x y => y.similarity < x.similarity) := by
  constructor
  · decide
  · decide

/-- C4 (amended): the ranking output has at most 3 elements, is descending
by score with ties allowed (non-strict), and contains only candidates from
the input. -/
theorem rank_top3_descending_subset (ms : List ScoredMatch) :
    (rank ms).length ≤ 3 ∧
    (rank ms).Pairwise (fun x y => y.similarity ≤ x.similarity) ∧
    ∀ m ∈ rank ms, m ∈ ms :=
  ⟨rank_length_le ms, rank_pairwise ms, fun _ h => rank_subset h⟩

/-- Witness for the C4 amended theorem at a concrete input, discharging the
membership hypothesis of its third component. -/
theorem rank_top3_descending_subset_witness :
    (rank [tiedM2]).length ≤ 3 ∧
    (rank [tiedM2]).Pairwise (fun x y => y.similarity ≤ x.similarity) ∧
    tiedM2 ∈ [tiedM2] :=
  ⟨(rank_top3_descending_subset [tiedM2]).1,
   (rank_top3_descending_subset [tiedM2]).2.1,
   (rank_top3_descending_subset [tiedM2]).2.2 tiedM2 (by decide)⟩

/-- Candidate B of the spec's tie-break scenario, first in catalog order. -/
def mB : ScoredMatch := ⟨⟨"B", "B, sans-serif", 400⟩, 92.4⟩

/-- Candidate A of the spec's tie-break scenario. -/
def mA : ScoredMatch := ⟨⟨"A", "A, sans-serif", 400⟩, 92.4⟩

/-- Candidate C of the spec's tie-break scenario. -/
def mC : ScoredMatch := ⟨⟨"C", "C, serif", 400⟩, 81⟩

/-- Candidate D of the spec's tie-break scenario. -/
def mD : ScoredMatch := ⟨⟨"D", "D, serif", 400⟩, 40⟩

/-- C5: ties are broken by catalog position (the sort is stable): for
candidates scored `A 92.4, B 92.4, C 81.0, D 40.0` arriving in catalog
order `[B, A, C, D]`, the ranking is `[B(92.4), A(92.4), C(81.0)]`. -/
theorem rank_tie_broken_by_catalog_order :
    rank [mB, mA, mC, mD] = [mB, mA, mC] := by
  norm_num [rank, sortDesc, mA, mB, mC, mD, simGE, List.insertionSort,
    List.orderedInsert]

/-- Score oracle for the C7 counterexample: rendering the first candidate
(`Roboto`) throws; every other candidate renders and scores 50. -/
def failFirstScore : FontCandidate → Option ℚ :=
  fun f => if f.name = "Roboto" then none else some 50

/-- C7 counterexample: when only the first candidate fails and the other
nine succeed, the run's result is the empty list — the failure is not
isolated to that candidate, and the remaining candidates do not appear in
the final ranking. -/
theorem single_failure_aborts_run :
    runMatching failFirstScore = [] ∧
      ∀ f ∈ testFonts.tail, failFirstScore f ≠ none := by
  constructor
  · decide
  · decide

/-- C7 (amended): a failure affecting any single candidate aborts the whole
run — the `catch` around the whole loop reports the empty result and no
remaining candidate is scored or ranked. -/
theorem single_failure_empties_result (scoreOf : FontCandidate → Option ℚ)
    (f : FontCandidate) (hf : f ∈ testFonts) (hnone : scoreOf f = none) :
    runMatching scoreOf = [] := by
  unfold runMatching
  rw [runLoop_none_of_mem scoreOf testFonts [] f hf hnone]

/-- Witness for the C7 amended theorem at a concrete failing candidate. -/
theorem single_failure_empties_result_witness :
    runMatching (fun f => if f.name = "Lato" then none else some 75) = [] :=
  single_failure_empties_result _ ⟨"Lato", "Lato, sans-serif", 400⟩
    (by decide) (by decide)

/-- C10: the built-in list has 10 candidates and each loop iteration pushes
exactly one scored match, so a run that completes produces exactly 3
results after `slice(0, 3)` and the failure path produces exactly 0 — the
result length is never 1 or 2. -/
theorem result_length_zero_or_three (scoreOf : FontCandidate → Option ℚ) :
    (runMatching scoreOf).length ≠ 1 ∧ (runMatching scoreOf).length ≠ 2 ∧
      ((∀ f ∈ testFonts, (scoreOf f).isSome) →
        (runMatching scoreOf).length = 3) := by
  have hmain : runMatching scoreOf = [] ∨ (runMatching scoreOf).length = 3 := by
    unfold runMatching
    cases hres : runLoop scoreOf testFonts [] with
    | none => left; rfl
    | some ms =>
        right
        have hlen := runLoop_some_length scoreOf testFonts [] ms hres
        simp [testFonts] at hlen
        exact rank_length_of_ge ms (by omega)
  refine ⟨?_, ?_, ?_⟩
  · rcases hmain with h | h
    · rw [h]; decide
    · omega
  · rcases hmain with h | h
    · rw [h]; decide
    · omega
  · intro hall
    obtain ⟨res, hres⟩ := runLoop_isSome_of_forall scoreOf testFonts [] hall
    unfold runMatching
    rw [hres]
    have hlen := runLoop_some_length scoreOf testFonts [] res hres
    simp [testFonts] at hlen
    exact rank_length_of_ge res (by omega)

/-- Witness for C10 at a concrete total score oracle. -/
theorem result_length_zero_or_three_witness :
    (runMatching (fun _ => some 50)).length ≠ 1 ∧
    (runMatching (fun _ => some 50)).length ≠ 2 ∧
    (runMatching (fun _ => some 50)).length = 3 :=
  ⟨(result_length_zero_or_three _).1,
   (result_length_zero_or_three _).2.1,
   (result_length_zero_or_three _).2.2 (by decide)⟩

/-- A mid-flight state of the C1 counterexample: the app is at the Match
step with a prior run's inputs loaded. -/
def midFlightState : AppState :=
  ⟨4, some "img.png", some "crop.png", "Hello", [], true⟩

/-- The stale result delivered by the prior run after the reset. -/
def staleMatches : List ScoredMatch :=
  [⟨⟨"Roboto", "Roboto, sans-serif", 400⟩, 90⟩]

/-- C1 counterexample: no generation token exists, so a prior run's
matching-complete callback that fires after `resetApp` still mutates
orchestrator state — the state does not stay Idle; it jumps to step 5 with
the stale matches installed. -/
theorem stale_callback_mutates_after_reset :
    (resetApp midFlightState).currentStep = 1 ∧
    (handleFontMatchingComplete staleMatches
        (resetApp midFlightState)).currentStep = 5 ∧
    (handleFontMatchingComplete staleMatches
        (resetApp midFlightState)).fontMatches = staleMatches :=
  ⟨rfl, rfl, rfl⟩

/-- C1 (amended): `resetApp` does return every state field to its initial
value, but there is no generation-token guard: a prior run's asynchronous
callbacks fired after the reset still mutate state — the matching-complete
callback moves the app to step 5 with the stale matches, and the extraction
callback moves it to step 4 with the stale text. -/
theorem reset_has_no_generation_guard (s : AppState) (ms : List ScoredMatch)
    (t : String) :
    resetApp s = initialState ∧
    handleFontMatchingComplete ms (resetApp s)
      = { initialState with currentStep := 5, fontMatches := ms } ∧
    handleOcrComplete t (resetApp s)
      = { initialState with currentStep := 4, extractedText := t } :=
  ⟨rfl, rfl, rfl⟩

/-- The user-edited text of the C6 counterexample, containing an embedded
newline typed into the editing textarea. -/
def editedText : List Char := ['a', '\n', 'b']

/-- C6 counterexample: a user-edited string with an embedded newline is
confirmed unchanged — `handleConfirm` only trims the ends, so the text
passed downstream still contains the newline. -/
theorem confirmed_text_keeps_embedded_newline :
    handleConfirm editedText = some editedText ∧ '\n' ∈ editedText := by
  constructor
  · decide
  · decide

/-- C6 (amended): every confirmed string reaches the matching stage with no
leading or trailing whitespace, and when the confirmed text is the cleaned
raw OCR output it also contains no embedded newline; a user-edited
replacement, however, may keep embedded newlines. -/
theorem confirmed_text_trimmed_and_ocr_newline_free :
    (∀ s t : List Char, handleConfirm s = some t → noEdgeWS t = true) ∧
    (∀ raw t : List Char, handleConfirm (cleanOcr raw) = some t →
        noEdgeWS t = true ∧ '\n' ∉ t) := by
  have hbase : ∀ s t : List Char, handleConfirm s = some t → t = jsTrim s := by
    intro s t h
    unfold handleConfirm at h
    by_cases hne : jsTrim s ≠ []
    · rw [if_pos hne] at h
      exact (Option.some.inj h).symm
    · rw [if_neg hne] at h
      exact absurd h (by simp)
  constructor
  · intro s t h
    rw [hbase s t h]
    exact jsTrim_noEdgeWS s
  · intro raw t h
    rw [hbase _ t h]
    refine ⟨jsTrim_noEdgeWS _, ?_⟩
    intro hmem
    exact newline_not_mem_cleanOcr raw (mem_jsTrim hmem)

/-- Witness for the C6 amended theorem at concrete inputs: confirming the
user text `"a"` and the cleaned OCR output of `"H\ni"`. -/
theorem confirmed_text_trimmed_witness :
    noEdgeWS ['a'] = true ∧
      (noEdgeWS ['H', ' ', 'i'] = true ∧
        '\n' ∉ (['H', ' ', 'i'] : List Char)) :=
  ⟨confirmed_text_trimmed_and_ocr_newline_free.1 ['a'] ['a'] (by decide),
   confirmed_text_trimmed_and_ocr_newline_free.2 ['H', '\n', 'i']
     ['H', ' ', 'i'] (by decide)⟩

/-- C8: whenever the catalog service is unavailable — missing API key or a
failed fetch — `fetchGoogleFonts` falls back to the built-in list of size
at least 1 instead of aborting, and matching over that fallback list still
completes: it produces a full top-3 result and the completion callback
reaches the Results step. -/
theorem catalog_fallback_reaches_completed
    (fetchResult : Option (List GoogleFontItem)) (key : String)
    (scoreOf : FontCandidate → Option ℚ) (s : AppState)
    (h : ∀ f ∈ expandWeights fallbackFonts, (scoreOf f).isSome) :
    fetchGoogleFonts none fetchResult = fallbackFonts ∧
    fetchGoogleFonts (some key) none = fallbackFonts ∧
    1 ≤ fallbackFonts.length ∧
    (runMatchingCatalog fallbackFonts scoreOf).length = 3 ∧
    (handleFontMatchingComplete (runMatchingCatalog fallbackFonts scoreOf)
        s).currentStep = 5 := by
  refine ⟨rfl, rfl, by decide, ?_, rfl⟩
  unfold runMatchingCatalog
  obtain ⟨res, hres⟩ :=
    runLoop_isSome_of_forall scoreOf (expandWeights fallbackFonts) [] h
  rw [hres]
  have hlen :=
    runLoop_some_length scoreOf (expandWeights fallbackFonts) [] res hres
  have hsix : (expandWeights fallbackFonts).length = 6 := by decide
  rw [hsix] at hlen
  simp at hlen
  exact rank_length_of_ge res (by omega)

/-- Witness for C8 at a concrete total score oracle and state. -/
theorem catalog_fallback_witness :
    fetchGoogleFonts none none = fallbackFonts ∧
    fetchGoogleFonts (some "k") none = fallbackFonts ∧
    1 ≤ fallbackFonts.length ∧
    (runMatchingCatalog fallbackFonts (fun _ => some 60)).length = 3 ∧
    (handleFontMatchingComplete
        (runMatchingCatalog fallbackFonts (fun _ => some 60))
        initialState).currentStep = 5 :=
  catalog_fallback_reaches_completed none "k" (fun _ => some 60)
    initialState (by decide)

end FontSnap
